import Mathlib

/-!
Shallow embedding of the AliExpress chat-integration pipeline
(intent parser, affiliate API client, result cache, search orchestrator)
together with proofs about the behaviour of the embedded operations.

Numbers that the TypeScript source manipulates as IEEE doubles are
modelled exactly as integers counting hundredths (so the source literal
`0.6` appears here as `60`, the price `20` as `2000`).  Every numeric
literal in the source is an integer multiple of 0.01, every arithmetic
step of the source (sums of such constants, integer-scaled penalties,
min/max/clamping, parsing prices with at most two decimals) is exact in
this grid, and no two numbers are ever multiplied, so the scaled-integer
model computes precisely the values the source computes (up to the
floating-point error of the source itself, which never comes within
0.04 of any comparison threshold used).
-/

/-- JS `String.prototype.includes`: `pat` occurs as a contiguous substring of `s`. -/
def strIncludes (s pat : String) : Bool :=
  s.data.tails.any (fun t => pat.data.isPrefixOf t)

/-- Helper for `splitWs`: `acc` holds the characters of the current word,
in reverse. -/
def splitWsAux : List Char → List Char → List String
  | [], acc => if acc.isEmpty then [] else [String.mk acc.reverse]
  | c :: rest, acc =>
      if c.isWhitespace then
        if acc.isEmpty then splitWsAux rest []
        else String.mk acc.reverse :: splitWsAux rest []
      else splitWsAux rest (c :: acc)

/-- JS `split(/\s+/)` on a trimmed string: the maximal runs of
non-whitespace characters, in order. -/
def splitWs (s : String) : List String :=
  splitWsAux s.data []

/-- JS regex test `/^\$?\d+/`: the token starts with an optional dollar
sign followed by at least one digit. -/
def startsWithNumber (w : String) : Bool :=
  match w.data with
  | [] => false
  | c :: rest =>
      if c = '$' then
        match rest with
        | [] => false
        | c2 :: _ => c2.isDigit
      else c.isDigit

/-- The stop words removed from keywords in `ProductIntentParser.parseIntent`. -/
def stopWords : List String :=
  ["find", "search", "looking", "for", "want", "need", "buy", "get",
   "show", "me", "under", "below", "above", "around", "about"]

/-- The keyword filter of `ProductIntentParser.parseIntent`: tokens of the
normalized message that are longer than 2 characters, not stop words, and
not digit-leading. -/
def keywordsOf (normalizedMessage : String) : List String :=
  (splitWs normalizedMessage).filter (fun word =>
    word.length > 2 && !(stopWords.contains word) && !(startsWithNumber word))

/-- Fraction part `(?:\.\d{2})?` of the price regex: a dot followed by
exactly two digits, consumed greedily when present. -/
def matchFrac : List Char → (List Char × List Char)
  | '.' :: a :: b :: rest =>
      if a.isDigit && b.isDigit then (['.', a, b], rest) else ([], '.' :: a :: b :: rest)
  | cs => ([], cs)

/-- Part `\d+(?:\.\d{2})?` of the price regex: a maximal digit run, then the
optional two-digit fraction; fails when no digit is present. -/
def matchNumber (cs : List Char) : Option (List Char × List Char) :=
  match cs.span Char.isDigit with
  | ([], _) => none
  | (ds, rest) =>
      match matchFrac rest with
      | (f, rest2) => some (ds ++ f, rest2)

/-- Part `(?:to|-)?` of the price regex, trying the alternatives in order. -/
def matchSep : List Char → List Char
  | 't' :: 'o' :: rest => rest
  | '-' :: rest => rest
  | cs => cs

/-- Part `\$?` of the price regex, consumed greedily. -/
def matchDollar : List Char → List Char
  | '$' :: rest => rest
  | cs => cs

/-- Attempt the price regex
`/\$?(\d+(?:\.\d{2})?)\s*(?:to|-)?\s*\$?(\d+(?:\.\d{2})?)?/i`
anchored at the start of `cs`, returning the two capture groups.  Every
part after the first capture group can match the empty string, so the
greedy left-to-right strategy coincides with the backtracking semantics. -/
def priceMatchAt (cs : List Char) : Option (String × Option String) :=
  match matchNumber (matchDollar cs) with
  | none => none
  | some (g1, r1) =>
      let r2 := matchSep (r1.dropWhile Char.isWhitespace)
      let r3 := matchDollar (r2.dropWhile Char.isWhitespace)
      match matchNumber r3 with
      | none => some (String.mk g1, none)
      | some (g2, _) => some (String.mk g1, some (String.mk g2))

/-- JS `String.prototype.match`: try the regex at each start position
from left to right and keep the first success. -/
def priceMatchList : List Char → Option (String × Option String)
  | [] => none
  | c :: rest =>
      match priceMatchAt (c :: rest) with
      | some r => some r
      | none => priceMatchList rest

/-- Numeric value of a digit run. -/
def digitsToNat (ds : List Char) : Nat :=
  ds.foldl (fun n c => 10 * n + (c.toNat - 48)) 0

/-- JS `parseFloat` restricted to the shapes the price regex captures
(a digit run with an optional two-digit fraction), returning hundredths. -/
def parseMoney (s : String) : Int :=
  match s.data.span Char.isDigit with
  | (ds, []) => (digitsToNat ds : Int) * 100
  | (ds, _ :: fs) => (digitsToNat ds : Int) * 100 + (digitsToNat fs : Int)

/-- The price range record of a `SearchIntent` (prices in hundredths). -/
structure PriceRange where
  min : Option Int := none
  max : Option Int := none
deriving DecidableEq, Repr

/-- Single-price branch of `ProductIntentParser.extractPriceRange`:
inspect the context words around a lone price mention. -/
def singlePriceRange (message : String) (price1 : Int) : Option PriceRange :=
  if strIncludes message "under" || strIncludes message "below" ||
      strIncludes message "less than" then
    some { max := some price1 }
  else if strIncludes message "above" || strIncludes message "over" ||
      strIncludes message "more than" then
    some { min := some price1 }
  else
    some { max := some price1 }

/-- Embedding of `ProductIntentParser.extractPriceRange`.  The JS truthiness test
`if (price2)` treats both an absent second capture and a second capture
parsing to 0 as "no second price". -/
def extractPriceRange (message : String) : Option PriceRange :=
  match priceMatchList message.toList with
  | none => none
  | some (g1, g2) =>
      let price1 := parseMoney g1
      match g2.map parseMoney with
      | some p2 =>
          if p2 ≠ 0 then
            some { min := some (min price1 p2), max := some (max price1 p2) }
          else
            singlePriceRange message price1
      | none => singlePriceRange message price1

/-- The ordered category → keyword table of `ProductIntentParser`. -/
def categoryKeywords : List (String × List String) :=
  [("electronics", ["phone", "laptop", "computer", "tablet", "headphones",
      "earbuds", "speaker", "camera", "tv", "monitor"]),
   ("clothing", ["shirt", "dress", "pants", "shoes", "jacket", "hoodie",
      "jeans", "sneakers", "boots"]),
   ("home", ["furniture", "decor", "kitchen", "bedroom", "living room",
      "bathroom", "garden", "tools"]),
   ("beauty", ["makeup", "skincare", "perfume", "cosmetics", "hair",
      "nail", "beauty"]),
   ("sports", ["fitness", "gym", "running", "yoga", "sports", "outdoor",
      "camping", "hiking"]),
   ("toys", ["toy", "game", "puzzle", "doll", "action figure",
      "board game", "kids", "children"]),
   ("automotive", ["car", "auto", "vehicle", "motorcycle", "bike",
      "parts", "accessories"])]

/-- Embedding of `ProductIntentParser.detectCategory`: the first category in
declaration order one of whose keywords is a substring of the message. -/
def detectCategory (message : String) : Option String :=
  (categoryKeywords.find? (fun p => p.2.any (fun kw => strIncludes message kw))).map
    Prod.fst

/-- The search-indicator phrases of `ProductIntentParser.calculateConfidence`. -/
def searchIndicators : List String :=
  ["find", "search", "looking for", "want", "need", "buy", "show me"]

/-- Embedding of `ProductIntentParser.calculateConfidence`: additive score starting
at 0.5, clamped to [0,1].  In hundredths: base 50, bonuses 20/10/10/10,
penalty 20, clamp to [0,100]. -/
def calculateConfidence (message : String) (keywords : List String)
    (priceRange : Option PriceRange) (category : Option String) : Int :=
  let c1 : Int := 50
  let c2 := if searchIndicators.any (fun ind => strIncludes message ind) then c1 + 20 else c1
  let c3 := if keywords.length ≥ 2 then c2 + 10 else c2
  let c4 := if priceRange.isSome then c3 + 10 else c3
  let c5 := if category.isSome then c4 + 10 else c4
  let c6 := if message.length < 10 || keywords.length = 0 then c5 - 20 else c5
  max 0 (min 100 c6)

/-- The structured search intent. -/
structure SearchIntent where
  keywords : List String
  category : Option String
  priceRange : Option PriceRange
  confidence : Int
deriving DecidableEq, Repr

/-- Strip whitespace from both ends of a character list (JS `trim`). -/
def trimList (cs : List Char) : List Char :=
  ((cs.dropWhile Char.isWhitespace).reverse.dropWhile Char.isWhitespace).reverse

/-- The normalization step of `parseIntent`: lower-case, then trim. -/
def normalizeMessage (message : String) : String :=
  String.mk (trimList (message.data.map Char.toLower))

/-- Embedding of `ProductIntentParser.parseIntent`. -/
def parseIntent (message : String) : SearchIntent :=
  let normalizedMessage := normalizeMessage message
  let words := keywordsOf normalizedMessage
  let priceRange := extractPriceRange normalizedMessage
  let category := detectCategory normalizedMessage
  { keywords := words
    category := category
    priceRange := priceRange
    confidence := calculateConfidence normalizedMessage words priceRange category }

/-- Embedding of `ProductIntentParser.isProductSearchIntent`: strict comparison
against 0.6 (60 hundredths). -/
def isProductSearchIntent (message : String) : Bool :=
  decide ((parseIntent message).confidence > 60)

/-- Embedding of `ProductIntentParser.generateSuggestions`. -/
def generateSuggestions (message : String) : List String :=
  let intent := parseIntent message
  if intent.keywords.length = 0 then
    ["Could you be more specific about what product you're looking for?"]
  else
    (if intent.priceRange.isNone then ["What's your budget range for this item?"] else []) ++
    (if intent.category.isNone then ["What category of product are you interested in?"] else []) ++
    (if intent.keywords.length = 1 then
      ["Are you looking for " ++ intent.keywords.headD "" ++ " in any specific style or brand?"]
     else [])

/-- The confidence computed by `calculateConfidence` when a search
indicator is present, at least two keywords survive, a price range was
extracted and a category was detected is at least 0.8 (80 hundredths):
the four bonuses always fire and at most the short-message penalty can
apply. -/
theorem calculateConfidence_ge_of_all_signals (m : String) (kw : List String)
    (pr : Option PriceRange) (cat : Option String)
    (h1 : searchIndicators.any (fun ind => strIncludes m ind) = true)
    (h2 : 2 ≤ kw.length) (h3 : pr.isSome = true) (h4 : cat.isSome = true) :
    80 ≤ calculateConfidence m kw pr cat := by
  have hkw0 : kw.length ≠ 0 := by omega
  simp only [calculateConfidence, h1, h3, h4, if_true]
  rw [if_pos (show kw.length ≥ 2 from h2)]
  by_cases hlen : m.length < 10 <;> simp [hlen, hkw0]

/-- C5: any message that contains a search-indicator phrase, keeps at
least two keywords after stop-word filtering, has an extractable price
range and a detectable category reaches confidence at least 0.6
(60 hundredths) and is classified as product-search intent (the strict
threshold `> 0.6` is passed, since the confidence is in fact at least
0.8). -/
theorem parseIntent_confident_of_all_signals (message : String)
    (h1 : searchIndicators.any
      (fun ind => strIncludes (normalizeMessage message) ind) = true)
    (h2 : 2 ≤ (parseIntent message).keywords.length)
    (h3 : (parseIntent message).priceRange.isSome = true)
    (h4 : (parseIntent message).category.isSome = true) :
    60 ≤ (parseIntent message).confidence ∧
      isProductSearchIntent message = true := by
  have hc : 80 ≤ (parseIntent message).confidence :=
    calculateConfidence_ge_of_all_signals (normalizeMessage message)
      (keywordsOf (normalizeMessage message))
      (extractPriceRange (normalizeMessage message))
      (detectCategory (normalizeMessage message)) h1 h2 h3 h4
  refine ⟨by omega, ?_⟩
  simp only [isProductSearchIntent, decide_eq_true_eq]
  omega

/-- Witness for C5 at the concrete message
"find me wireless earbuds under $20". -/
theorem parseIntent_confident_of_all_signals_witness :
    60 ≤ (parseIntent "find me wireless earbuds under $20").confidence ∧
      isProductSearchIntent "find me wireless earbuds under $20" = true :=
  parseIntent_confident_of_all_signals "find me wireless earbuds under $20"
    (by decide) (by decide) (by decide) (by decide)

/-- C6 counterexample: for the message "what's 2+2?" the keyword filter
keeps the token "what's" (six characters, not a stop word, not
digit-leading), so the keyword list is not empty, and the computed
confidence is 0.6 (60 hundredths), not at most 0.3 (30): the price
regex extracts the lone price 2 out of "2+2", which adds the +0.1 price
bonus, and the surviving keyword suppresses the zero-keyword penalty. -/
theorem parseIntent_whats22_counterexample :
    (parseIntent "what's 2+2?").keywords ≠ [] ∧
    ¬ ((parseIntent "what's 2+2?").confidence ≤ 30) := by decide

/-- C6 amended: for the message "what's 2+2?" the parser keeps exactly
one keyword, "what's"; the confidence is exactly 0.6 (60 hundredths);
and the message is still not classified as product-search intent,
because the classification threshold `> 0.6` is strict. -/
theorem parseIntent_whats22 :
    (parseIntent "what's 2+2?").keywords = ["what's"] ∧
    (parseIntent "what's 2+2?").confidence = 60 ∧
    isProductSearchIntent "what's 2+2?" = false := by decide

/-- C7: parsing "find me wireless earbuds under $20" keeps the keywords
"wireless" and "earbuds" while dropping "find", "me" and "under"; the
price range is max-only $20 (2000 hundredths); the category is
electronics. -/
theorem parseIntent_earbuds_query :
    "wireless" ∈ (parseIntent "find me wireless earbuds under $20").keywords ∧
    "earbuds" ∈ (parseIntent "find me wireless earbuds under $20").keywords ∧
    "find" ∉ (parseIntent "find me wireless earbuds under $20").keywords ∧
    "me" ∉ (parseIntent "find me wireless earbuds under $20").keywords ∧
    "under" ∉ (parseIntent "find me wireless earbuds under $20").keywords ∧
    (parseIntent "find me wireless earbuds under $20").priceRange =
      some { min := none, max := some 2000 } ∧
    (parseIntent "find me wireless earbuds under $20").category =
      some "electronics" := by decide

/-- C10: every keyword returned by `parseIntent` is one of the
whitespace-delimited tokens of the normalized (lower-cased, trimmed)
message, has at least 3 characters, is not a stop word, does not begin
with a digit, and does not begin with a dollar sign followed by a
digit. -/
theorem parseIntent_keywords_filtered (message w : String)
    (hw : w ∈ (parseIntent message).keywords) :
    w ∈ splitWs (normalizeMessage message) ∧ 3 ≤ w.length ∧
      stopWords.contains w = false ∧
      (∀ c l, w.data = c :: l → c.isDigit = false) ∧
      (∀ c l, w.data = '$' :: c :: l → c.isDigit = false) := by
  simp only [parseIntent, keywordsOf] at hw
  rw [List.mem_filter] at hw
  obtain ⟨hmem, hcond⟩ := hw
  rw [Bool.and_eq_true, Bool.and_eq_true] at hcond
  obtain ⟨⟨hlen, hstop⟩, hnum⟩ := hcond
  rw [decide_eq_true_eq] at hlen
  rw [Bool.not_eq_eq_eq_not, Bool.not_true] at hstop hnum
  refine ⟨hmem, by omega, hstop, ?_, ?_⟩
  · intro c l hcl
    by_cases hc : c = '$'
    · subst hc; decide
    · simpa only [startsWithNumber, hcl, if_neg hc] using hnum
  · intro c l hcl
    simpa only [startsWithNumber, hcl, if_pos rfl] using hnum

/-- Witness for C10 at the keyword "wireless" of the concrete message
"find me wireless earbuds under $20". -/
theorem parseIntent_keywords_filtered_witness :
    "wireless" ∈ splitWs (normalizeMessage "find me wireless earbuds under $20") ∧
      3 ≤ ("wireless" : String).length ∧
      stopWords.contains "wireless" = false ∧
      (∀ c l, ("wireless" : String).data = c :: l → c.isDigit = false) ∧
      (∀ c l, ("wireless" : String).data = '$' :: c :: l → c.isDigit = false) :=
  parseIntent_keywords_filtered "find me wireless earbuds under $20" "wireless"
    (by decide)

/-- The domain object produced by affiliate-link generation. -/
structure AffiliateLink where
  originalUrl : String
  affiliateUrl : String
  shortUrl : Option String := none
  trackingId : String
deriving DecidableEq, Repr

/-- One entry of the upstream response's `promotion_links` array. -/
structure PromotionLink where
  source_value : String
  promotion_link : String
  short_promotion_link : Option String := none
deriving DecidableEq, Repr

/-- The pass-through fallback link emitted when affiliate-link generation
fails, or when a URL is unmatched in the upstream response. -/
def passThroughLink (pid url : String) : AffiliateLink :=
  { originalUrl := url, affiliateUrl := url, trackingId := pid }

/-- The `linkMap` built in `AliExpressClient.parseAffiliateLinks`: a JS
`Map` keyed by `source_value`, a later `set` overwriting an earlier one
with the same key. -/
def linkMapOf (pid : String) (links : List PromotionLink) :
    String → Option AffiliateLink :=
  links.foldl
    (fun m link => fun url =>
      if url = link.source_value then
        some { originalUrl := link.source_value,
               affiliateUrl := link.promotion_link,
               shortUrl := link.short_promotion_link,
               trackingId := pid }
      else m url)
    (fun _ => none)

/-- Embedding of `AliExpressClient.parseAffiliateLinks`: one entry per original URL,
the matched promotion link or a pass-through fallback. -/
def parseAffiliateLinks (pid : String) (links : List PromotionLink)
    (originalUrls : List String) : List AffiliateLink :=
  originalUrls.map (fun url => (linkMapOf pid links url).getD (passThroughLink pid url))

/-- Embedding of `AliExpressClient.generateAffiliateLinks`.  The upstream HTTP call
(an external service) is modelled by its observable outcome: `some links`
when the response carries a `promotion_links` array, `none` when the
request throws or the response envelope lacks the array — the two source
branches whose fallback bodies are identical. -/
def generateAffiliateLinks (pid : String) (productUrls : List String)
    (upstream : Option (List PromotionLink)) : List AffiliateLink :=
  match upstream with
  | some links => parseAffiliateLinks pid links productUrls
  | none => productUrls.map (passThroughLink pid)

/-- Folding link insertions over a map that misses `url` still misses
`url` when no inserted link matches it. -/
theorem linkMap_foldl_none (pid url : String) (links : List PromotionLink) :
    ∀ m : String → Option AffiliateLink,
      (∀ l ∈ links, l.source_value ≠ url) → m url = none →
      (links.foldl
        (fun m link => fun u =>
          if u = link.source_value then
            some { originalUrl := link.source_value,
                   affiliateUrl := link.promotion_link,
                   shortUrl := link.short_promotion_link,
                   trackingId := pid }
          else m u) m) url = none := by
  induction links with
  | nil => intro m _ hm; exact hm
  | cons link rest ih =>
      intro m h hm
      rw [List.foldl_cons]
      apply ih
      · intro l hl; exact h l (List.mem_cons_of_mem _ hl)
      · have hne : url ≠ link.source_value :=
          fun hu => h link (List.mem_cons_self _ _) hu.symm
        simp only [if_neg hne]
        exact hm

/-- Every link the folded map returns for `url` has `originalUrl = url`
and the configured tracking id. -/
theorem linkMap_foldl_found (pid url : String) (links : List PromotionLink) :
    ∀ m : String → Option AffiliateLink,
      (∀ e, m url = some e → e.originalUrl = url ∧ e.trackingId = pid) →
      ∀ e,
        (links.foldl
          (fun m link => fun u =>
            if u = link.source_value then
              some { originalUrl := link.source_value,
                     affiliateUrl := link.promotion_link,
                     shortUrl := link.short_promotion_link,
                     trackingId := pid }
            else m u) m) url = some e →
        e.originalUrl = url ∧ e.trackingId = pid := by
  induction links with
  | nil => intro m hm e he; exact hm e he
  | cons link rest ih =>
      intro m hm e he
      rw [List.foldl_cons] at he
      refine ih _ ?_ e he
      intro e' he'
      by_cases hu : url = link.source_value
      · simp only [if_pos hu] at he'
        cases he'
        exact ⟨hu.symm, rfl⟩
      · simp only [if_neg hu] at he'
        exact hm e' he'

/-- C1: `generateAffiliateLinks` returns exactly one `AffiliateLink` per
input URL, in input order, with `originalUrl` the corresponding input URL
and `trackingId` the configured PID; when the upstream call fails, and
also when a URL is unmatched in a successful response, the corresponding
entry is the pass-through link (so `affiliateUrl = originalUrl`).  The
operation is a total function of the upstream outcome — no exception
escapes it. -/
theorem generateAffiliateLinks_spec (pid : String) (productUrls : List String)
    (upstream : Option (List PromotionLink)) :
    (generateAffiliateLinks pid productUrls upstream).length = productUrls.length ∧
    (∀ (i : Nat) (url : String), productUrls[i]? = some url →
      ∃ entry, (generateAffiliateLinks pid productUrls upstream)[i]? = some entry ∧
        entry.originalUrl = url ∧ entry.trackingId = pid ∧
        (upstream = none → entry = passThroughLink pid url) ∧
        (∀ links, upstream = some links →
          (∀ l ∈ links, l.source_value ≠ url) → entry = passThroughLink pid url)) := by
  cases upstream with
  | none =>
      refine ⟨List.length_map _ _, ?_⟩
      intro i url hi
      refine ⟨passThroughLink pid url, ?_, rfl, rfl, fun _ => rfl, ?_⟩
      · rw [generateAffiliateLinks, List.getElem?_map, hi, Option.map_some']
      · intro links hlinks; cases hlinks
  | some links =>
      refine ⟨List.length_map _ _, ?_⟩
      intro i url hi
      refine ⟨(linkMapOf pid links url).getD (passThroughLink pid url), ?_, ?_, ?_, ?_, ?_⟩
      · rw [generateAffiliateLinks, parseAffiliateLinks, List.getElem?_map, hi,
          Option.map_some']
      · cases hfound : linkMapOf pid links url with
        | none => simp [hfound, passThroughLink]
        | some e =>
            have := linkMap_foldl_found pid url links (fun _ => none)
              (fun e h => by cases h) e hfound
            simp [hfound, this.1]
      · cases hfound : linkMapOf pid links url with
        | none => simp [hfound, passThroughLink]
        | some e =>
            have := linkMap_foldl_found pid url links (fun _ => none)
              (fun e h => by cases h) e hfound
            simp [hfound, this.2]
      · intro h; cases h
      · intro links' hlinks' hmiss
        cases hlinks'
        unfold linkMapOf
        rw [linkMap_foldl_none pid url links (fun _ => none) hmiss rfl]
        rfl

/-- Witness for C1: three URLs with a failed upstream call produce three
pass-through entries. -/
theorem generateAffiliateLinks_spec_witness :
    (generateAffiliateLinks "pid-1" ["u1", "u2", "u3"] none).length = 3 ∧
    ∃ entry, (generateAffiliateLinks "pid-1" ["u1", "u2", "u3"] none)[(1 : Nat)]? = some entry ∧
      entry.originalUrl = "u2" ∧ entry.trackingId = "pid-1" ∧
      entry = passThroughLink "pid-1" "u2" :=
  ⟨(generateAffiliateLinks_spec "pid-1" ["u1", "u2", "u3"] none).1,
    match (generateAffiliateLinks_spec "pid-1" ["u1", "u2", "u3"] none).2 1 "u2" rfl with
    | ⟨entry, h1, h2, h3, h4, _⟩ => ⟨entry, h1, h2, h3, h4 rfl⟩⟩

/-- JS object key access `params[key]` on the association list holding
the request parameters (the keys fed to it always come from
`Object.keys(params)`, so the default never fires). -/
def lookupParam (params : List (String × String)) (key : String) : String :=
  ((params.find? (fun p => p.1 == key)).map Prod.snd).getD ""

/-- Upper-case a string (JS `toUpperCase` on the ASCII hex digest). -/
def strToUpper (s : String) : String :=
  String.mk (s.data.map Char.toUpper)

/-- Embedding of `AliExpressClient.generateSignature`.  The MD5 digest comes from
Node's `crypto` library, outside this repository; it is modelled as a
parameter `md5Hex` mapping a string to its hex digest.  `Object.keys`
with `sort()` is modelled by sorting the association list's keys by the
lexicographic string order. -/
def generateSignature (md5Hex : String → String) (appSecret : String)
    (params : List (String × String)) : String :=
  let sortedKeys := (params.map Prod.fst).insertionSort (· ≤ ·)
  let queryString := sortedKeys.foldl (fun acc key => acc ++ key ++ lookupParam params key) ""
  strToUpper (md5Hex (appSecret ++ queryString ++ appSecret))

/-- Concatenation of `key ++ value` over a list of keys, with no
separators — the specification's description of the signed string. -/
def concatPairs (value : String → String) : List String → String
  | [] => ""
  | k :: rest => k ++ value k ++ concatPairs value rest

/-- The signature as the specification words it: the upper-cased hex
digest of `secret ++ (key ++ value concatenated over the
lexicographically sorted keys) ++ secret`. -/
def signatureSpec (md5Hex : String → String) (appSecret : String)
    (params : List (String × String)) : String :=
  strToUpper (md5Hex (appSecret ++
    concatPairs (lookupParam params)
      ((params.map Prod.fst).insertionSort (· ≤ ·)) ++ appSecret))

/-- The pair-concatenating fold equals prepending the accumulator to
`concatPairs`. -/
theorem foldl_concatPairs (value : String → String) (ks : List String) :
    ∀ acc : String,
      ks.foldl (fun acc key => acc ++ key ++ value key) acc =
        acc ++ concatPairs value ks := by
  induction ks with
  | nil => intro acc; rw [List.foldl_nil, concatPairs, String.append_empty]
  | cons k rest ih =>
      intro acc
      rw [List.foldl_cons, ih, concatPairs]
      simp [String.append_assoc]

/-- With pairwise-distinct keys, `find?` by key returns exactly the
unique pair holding that key. -/
theorem find?_key_of_nodupKeys (l : List (String × String)) (k v : String) :
    (l.map Prod.fst).Nodup → (k, v) ∈ l →
    l.find? (fun p => p.1 == k) = some (k, v) := by
  induction l with
  | nil => intro _ h; cases h
  | cons a rest ih =>
      intro hnd hmem
      rw [List.map_cons, List.nodup_cons] at hnd
      rcases List.mem_cons.1 hmem with rfl | hmem'
      · exact List.find?_cons_of_pos _ (by simp)
      · have hka : ¬ (a.1 == k) = true := by
          intro hbeq
          apply hnd.1
          rw [beq_iff_eq] at hbeq
          rw [hbeq]
          exact List.mem_map_of_mem Prod.fst hmem'
        rw [@List.find?_cons_of_neg _ (fun p => p.1 == k) a rest hka]
        exact ih hnd.2 hmem'

/-- A `find?` by a key outside the key list fails. -/
theorem find?_key_of_not_mem (l : List (String × String)) (k : String)
    (h : k ∉ l.map Prod.fst) : l.find? (fun p => p.1 == k) = none := by
  rw [List.find?_eq_none]
  intro p hp hbeq
  rw [beq_iff_eq] at hbeq
  exact h (hbeq ▸ List.mem_map_of_mem Prod.fst hp)

/-- Looking a key up in a permutation of a nodup-keyed association list
gives the same value. -/
theorem lookupParam_perm (params params' : List (String × String))
    (hperm : params'.Perm params) (hnd : (params.map Prod.fst).Nodup)
    (k : String) : lookupParam params' k = lookupParam params k := by
  have hnd' : (params'.map Prod.fst).Nodup := ((hperm.map Prod.fst).nodup_iff).2 hnd
  by_cases hk : ∃ v, (k, v) ∈ params
  · obtain ⟨v, hv⟩ := hk
    rw [lookupParam, lookupParam, find?_key_of_nodupKeys params k v hnd hv,
      find?_key_of_nodupKeys params' k v hnd' (hperm.mem_iff.2 hv)]
  · have hk1 : k ∉ params.map Prod.fst := by
      intro hmem
      obtain ⟨p, hp, hpk⟩ := List.mem_map.1 hmem
      refine hk ⟨p.2, ?_⟩
      rw [← hpk, Prod.mk.eta]
      exact hp
    have hk2 : k ∉ params'.map Prod.fst := by
      intro hmem
      obtain ⟨p, hp, hpk⟩ := List.mem_map.1 hmem
      refine hk ⟨p.2, ?_⟩
      rw [← hpk, Prod.mk.eta]
      exact hperm.mem_iff.1 hp
    rw [lookupParam, lookupParam, find?_key_of_not_mem params k hk1,
      find?_key_of_not_mem params' k hk2]

/-- C4: the signature is the upper-cased hex digest of
`secret ++ (key ++ value over lexicographically sorted keys) ++ secret`,
and for parameter lists with pairwise-distinct keys it is invariant
under permutation of the insertion order: it is a function of the
key-value set alone. -/
theorem generateSignature_spec (md5Hex : String → String) (appSecret : String)
    (params params' : List (String × String))
    (hnd : (params.map Prod.fst).Nodup) (hperm : params'.Perm params) :
    generateSignature md5Hex appSecret params' =
      generateSignature md5Hex appSecret params ∧
    generateSignature md5Hex appSecret params =
      signatureSpec md5Hex appSecret params := by
  have hkeys : ((params'.map Prod.fst).insertionSort (· ≤ ·)) =
      ((params.map Prod.fst).insertionSort (· ≤ ·)) :=
    List.eq_of_perm_of_sorted
      ((List.perm_insertionSort _ _).trans
        ((hperm.map Prod.fst).trans (List.perm_insertionSort _ _).symm))
      (List.sorted_insertionSort _ _) (List.sorted_insertionSort _ _)
  have hfun : (fun (acc key : String) => acc ++ key ++ lookupParam params' key) =
      (fun (acc key : String) => acc ++ key ++ lookupParam params key) := by
    funext acc key
    rw [lookupParam_perm params params' hperm hnd]
  constructor
  · simp only [generateSignature]
    rw [hkeys, hfun]
  · simp only [generateSignature, signatureSpec]
    rw [foldl_concatPairs]
    rfl

/-- Witness for C4: two insertion orders of the same two-entry parameter
map produce the same signature, equal to the spec-side form. -/
theorem generateSignature_spec_witness :
    generateSignature (fun s => s) "sec" [("a", "1"), ("b", "2")] =
      generateSignature (fun s => s) "sec" [("b", "2"), ("a", "1")] ∧
    generateSignature (fun s => s) "sec" [("b", "2"), ("a", "1")] =
      signatureSpec (fun s => s) "sec" [("b", "2"), ("a", "1")] :=
  generateSignature_spec (fun s => s) "sec" [("b", "2"), ("a", "1")]
    [("a", "1"), ("b", "2")] (by decide) (by decide)

/-- A chat-displayable product card.  The nested `price`/`seller`
sub-records of the source are flattened into fields; prices and ratings
are in hundredths. -/
structure ProductCard where
  id : String
  title : String
  image : String
  priceCurrent : Int
  priceOriginal : Option Int := none
  currency : String
  discount : Option String := none
  sellerName : String
  sellerRating : Int
  sellerOrders : Nat
  affiliateUrl : String
  originalUrl : String
  relevanceScore : Int
deriving DecidableEq, Repr

/-- The search response returned to the chat layer. -/
structure SearchResponse where
  products : List ProductCard
  totalResults : Nat
  currentPage : Nat
  totalPages : Nat
  searchTime : Nat
  cached : Bool
deriving DecidableEq, Repr

/-- A value stored in the cache.  Redis stores strings; the
`JSON.stringify`/`JSON.parse` round-trip (Node built-ins, lossless on
these records) is modelled by storing the typed payload directly, and a
rate-limit counter (a decimal numeral string read with `parseInt` and
bumped with `INCR`) by its numeric value. -/
inductive RValue where
  | count (n : Nat)
  | search (resp : SearchResponse) (cachedAt : Nat)
  | link (l : AffiliateLink)
deriving DecidableEq, Repr

/-- The key-value store with per-key expiry timestamps.  All times are
in seconds; a key is live at time `now` exactly when `now < expiresAt`. -/
abbrev RedisStore := String → Option (RValue × Nat)

/-- A store with no keys. -/
def emptyStore : RedisStore := fun _ => none

/-- Operation `redis.get`, respecting expiry. -/
def redisGet (r : RedisStore) (now : Nat) (k : String) : Option RValue :=
  match r k with
  | some (v, e) => if now < e then some v else none
  | none => none

/-- Operation `redis.setex`: store a value that expires `ttl` seconds from now. -/
def redisSetex (r : RedisStore) (now : Nat) (k : String) (ttl : Nat)
    (v : RValue) : RedisStore :=
  fun key => if key = k then some (v, now + ttl) else r key

/-- Operation `redis.ttl`: remaining seconds (the source only consults it on keys
it has just read). -/
def redisTtl (r : RedisStore) (now : Nat) (k : String) : Nat :=
  match r k with
  | some (_, e) => e - now
  | none => 0

/-- Operation `redis.incr` on the counter at `k`, preserving its expiry
(`checkRateLimit` only ever increments a key it has just read). -/
def redisIncr (r : RedisStore) (k : String) : RedisStore :=
  fun key =>
    if key = k then
      match r k with
      | some (RValue.count n, e) => some (RValue.count (n + 1), e)
      | v => v
    else r key

/-- The rate-limit result (`remaining` can go negative in JS, hence
`Int`).  `resetTime` is in seconds, like every time in this model. -/
structure RateLimitResult where
  allowed : Bool
  remaining : Int
  resetTime : Nat
deriving DecidableEq, Repr

/-- Embedding of `AliExpressCache.getRateLimitKey`. -/
def getRateLimitKey (service identifier : String) : String :=
  "aliexpress:ratelimit:" ++ service ++ ":" ++ identifier

/-- The `parseInt(current)` on a stored counter value. -/
def rvalueCount : RValue → Nat
  | RValue.count n => n
  | _ => 0

/-- Embedding of `AliExpressCache.checkRateLimit`: fixed-window counting.  Absent key:
store 1, allow.  Counter at or above the limit: refuse, do not touch the
store.  Otherwise: increment, allow. -/
def checkRateLimit (r : RedisStore) (now : Nat) (service identifier : String)
    (limit : Nat) (windowSeconds : Nat) : RateLimitResult × RedisStore :=
  let key := getRateLimitKey service identifier
  match redisGet r now key with
  | none =>
      ({ allowed := true, remaining := (limit : Int) - 1,
         resetTime := now + windowSeconds },
       redisSetex r now key windowSeconds (RValue.count 1))
  | some v =>
      let count := rvalueCount v
      let ttl := redisTtl r now key
      if count ≥ limit then
        ({ allowed := false, remaining := 0, resetTime := now + ttl }, r)
      else
        ({ allowed := true, remaining := (limit : Int) - count - 1,
           resetTime := now + ttl },
         redisIncr r key)

/-- The counter value currently stored at `k` (0 when absent or not a
counter). -/
def storedCount (r : RedisStore) (k : String) : Nat :=
  match r k with
  | some (RValue.count n, _) => n
  | _ => 0

/-- Run a sequence of `checkRateLimit` calls at the given times,
threading the store. -/
def runRateLimitCalls (service identifier : String) (limit window : Nat) :
    RedisStore → List Nat → RedisStore
  | r, [] => r
  | r, now :: rest =>
      runRateLimitCalls service identifier limit window
        (checkRateLimit r now service identifier limit window).2 rest

/-- One `checkRateLimit` call with a positive limit keeps the stored
counter at or below the limit. -/
theorem checkRateLimit_step_le (r : RedisStore) (now : Nat)
    (service identifier : String) (limit window : Nat) (hlim : 1 ≤ limit)
    (h : storedCount r (getRateLimitKey service identifier) ≤ limit) :
    storedCount (checkRateLimit r now service identifier limit window).2
      (getRateLimitKey service identifier) ≤ limit := by
  simp only [checkRateLimit]
  cases hget : redisGet r now (getRateLimitKey service identifier) with
  | none =>
      simp only [storedCount, redisSetex, eq_self_iff_true, ite_true]
      omega
  | some v =>
      by_cases hc : rvalueCount v ≥ limit
      · simp only [if_pos hc]
        exact h
      · simp only [if_neg hc]
        cases hrk : r (getRateLimitKey service identifier) with
        | none =>
            simp only [redisGet, hrk] at hget
            exact Option.noConfusion hget
        | some pe =>
            obtain ⟨v', e⟩ := pe
            simp only [redisGet, hrk] at hget
            by_cases hnow : now < e
            · rw [if_pos hnow, Option.some.injEq] at hget
              subst hget
              cases v' with
              | count n =>
                  simp only [storedCount, redisIncr, eq_self_iff_true, ite_true, hrk]
                  simp only [rvalueCount] at hc
                  omega
              | search resp c =>
                  simp only [storedCount, redisIncr, eq_self_iff_true, ite_true, hrk]
                  omega
              | link l =>
                  simp only [storedCount, redisIncr, eq_self_iff_true, ite_true, hrk]
                  omega
            · rw [if_neg hnow] at hget
              exact Option.noConfusion hget

/-- The counter bound is preserved across any sequence of calls. -/
theorem runRateLimitCalls_le (service identifier : String)
    (limit window : Nat) (hlim : 1 ≤ limit) :
    ∀ (times : List Nat) (r : RedisStore),
      storedCount r (getRateLimitKey service identifier) ≤ limit →
      storedCount (runRateLimitCalls service identifier limit window r times)
        (getRateLimitKey service identifier) ≤ limit := by
  intro times
  induction times with
  | nil => intro r h; exact h
  | cons now rest ih =>
      intro r h
      exact ih _ (checkRateLimit_step_le r now service identifier limit window hlim h)

/-- C3 counterexample: with limit 0, the very first call of a window
stores the counter value 1 — the first-request branch stores 1 without
consulting the limit — so "the stored counter never exceeds N" fails
for N = 0. -/
theorem checkRateLimit_limit_zero_counterexample :
    ¬ (storedCount (runRateLimitCalls "search" "anonymous" 0 1 emptyStore [5])
        (getRateLimitKey "search" "anonymous") ≤ 0) := by decide

/-- C3 amended: (i) whenever the stored counter for a key has reached
the limit N within the current window, `checkRateLimit` returns
`allowed := false` with `remaining := 0` and leaves the store unchanged
— this holds for every N; (ii) for limits N ≥ 1 (the amendment: N = 0
admits the counterexample above), from any store whose counter is at
most N — in particular from an empty store — the stored counter stays
at most N across every sequence of calls. -/
theorem checkRateLimit_spec (r : RedisStore) (now : Nat)
    (service identifier : String) (limit window : Nat) :
    (∀ v, redisGet r now (getRateLimitKey service identifier) = some v →
      limit ≤ rvalueCount v →
      (checkRateLimit r now service identifier limit window).1.allowed = false ∧
      (checkRateLimit r now service identifier limit window).1.remaining = 0 ∧
      (checkRateLimit r now service identifier limit window).2 = r) ∧
    (1 ≤ limit →
      ∀ times : List Nat,
        storedCount r (getRateLimitKey service identifier) ≤ limit →
        storedCount (runRateLimitCalls service identifier limit window r times)
          (getRateLimitKey service identifier) ≤ limit) := by
  constructor
  · intro v hv hle
    simp only [checkRateLimit, hv]
    rw [if_pos (show rvalueCount v ≥ limit from hle)]
    exact ⟨rfl, rfl, rfl⟩
  · intro hlim times h
    exact runRateLimitCalls_le service identifier limit window hlim times r h

/-- Witness for C3 (amended) on a concrete store whose counter sits at
the limit 3, and a five-call sequence from the same store. -/
theorem checkRateLimit_spec_witness :
    ((checkRateLimit
        (redisSetex emptyStore 0 (getRateLimitKey "search" "u") 10 (RValue.count 3))
        5 "search" "u" 3 1).1.allowed = false ∧
      (checkRateLimit
        (redisSetex emptyStore 0 (getRateLimitKey "search" "u") 10 (RValue.count 3))
        5 "search" "u" 3 1).1.remaining = 0 ∧
      (checkRateLimit
        (redisSetex emptyStore 0 (getRateLimitKey "search" "u") 10 (RValue.count 3))
        5 "search" "u" 3 1).2 =
        redisSetex emptyStore 0 (getRateLimitKey "search" "u") 10 (RValue.count 3)) ∧
    storedCount
      (runRateLimitCalls "search" "u" 3 1
        (redisSetex emptyStore 0 (getRateLimitKey "search" "u") 10 (RValue.count 3))
        [5, 6, 7, 8, 9])
      (getRateLimitKey "search" "u") ≤ 3 :=
  ⟨(checkRateLimit_spec
      (redisSetex emptyStore 0 (getRateLimitKey "search" "u") 10 (RValue.count 3))
      5 "search" "u" 3 1).1 (RValue.count 3) (by decide) (by decide),
   (checkRateLimit_spec
      (redisSetex emptyStore 0 (getRateLimitKey "search" "u") 10 (RValue.count 3))
      5 "search" "u" 3 1).2 (by decide) [5, 6, 7, 8, 9] (by decide)⟩

/-- The search-cache TTL of one hour. -/
def SEARCH_TTL : Nat := 3600

/-- Embedding of `AliExpressCache.getSearchKey`: the digest (the same external MD5,
modelled as the parameter `md5Hex`) of the keywords concatenated with
`JSON.stringify(filters)`.  The filter object reaches this function only
through its serialization, so the serialized string stands in for it. -/
def getSearchKey (md5Hex : String → String) (keywords filterString : String) : String :=
  "aliexpress:search:" ++ md5Hex (keywords ++ filterString)

/-- Embedding of `AliExpressCache.cacheSearchResults`: store the response with
`cached := true` stamped in (plus a `cachedAt` timestamp) for
`SEARCH_TTL` seconds. -/
def cacheSearchResults (md5Hex : String → String) (r : RedisStore) (now : Nat)
    (keywords filterString : String) (results : SearchResponse) : RedisStore :=
  redisSetex r now (getSearchKey md5Hex keywords filterString) SEARCH_TTL
    (RValue.search { results with cached := true } now)

/-- Embedding of `AliExpressCache.getCachedSearchResults`: parse and return the live
entry, or report a miss. -/
def getCachedSearchResults (md5Hex : String → String) (r : RedisStore) (now : Nat)
    (keywords filterString : String) : Option SearchResponse :=
  match redisGet r now (getSearchKey md5Hex keywords filterString) with
  | some (RValue.search resp _) => some resp
  | _ => none

/-- C9: after `cacheSearchResults` at time `t`, a read with the same
keywords and filters strictly before the 3600-second TTL expires returns
the stored response — its product list is the one written and its
`cached` field is true — and a read at or after expiry is a cache miss. -/
theorem searchCache_roundTrip (md5Hex : String → String) (r : RedisStore)
    (t tr : Nat) (keywords filterString : String) (results : SearchResponse) :
    (tr < t + 3600 →
      getCachedSearchResults md5Hex
          (cacheSearchResults md5Hex r t keywords filterString results) tr
          keywords filterString = some { results with cached := true } ∧
        ({ results with cached := true } : SearchResponse).products = results.products ∧
        ({ results with cached := true } : SearchResponse).cached = true) ∧
    (t + 3600 ≤ tr →
      getCachedSearchResults md5Hex
          (cacheSearchResults md5Hex r t keywords filterString results) tr
          keywords filterString = none) := by
  constructor
  · intro h
    refine ⟨?_, rfl, rfl⟩
    simp only [getCachedSearchResults, cacheSearchResults, redisGet, redisSetex,
      SEARCH_TTL, eq_self_iff_true, ite_true]
    rw [if_pos (show tr < t + 3600 from h)]
  · intro h
    simp only [getCachedSearchResults, cacheSearchResults, redisGet, redisSetex,
      SEARCH_TTL, eq_self_iff_true, ite_true]
    rw [if_neg (show ¬ tr < t + 3600 by omega)]

/-- Witness for C9 on a concrete response, read at time 100 (hit) and at
time 4000 (expired). -/
theorem searchCache_roundTrip_witness :
    (getCachedSearchResults (fun s => s)
        (cacheSearchResults (fun s => s) emptyStore 0 "kw" "fil"
          { products := [], totalResults := 0, currentPage := 1,
            totalPages := 1, searchTime := 7, cached := false }) 100 "kw" "fil" =
      some { products := [], totalResults := 0, currentPage := 1,
             totalPages := 1, searchTime := 7, cached := true } ∧
      True) ∧
    getCachedSearchResults (fun s => s)
        (cacheSearchResults (fun s => s) emptyStore 0 "kw" "fil"
          { products := [], totalResults := 0, currentPage := 1,
            totalPages := 1, searchTime := 7, cached := false }) 4000 "kw" "fil" =
      none :=
  ⟨⟨((searchCache_roundTrip (fun s => s) emptyStore 0 100 "kw" "fil"
      { products := [], totalResults := 0, currentPage := 1,
        totalPages := 1, searchTime := 7, cached := false }).1 (by omega)).1,
    trivial⟩,
   (searchCache_roundTrip (fun s => s) emptyStore 0 4000 "kw" "fil"
      { products := [], totalResults := 0, currentPage := 1,
        totalPages := 1, searchTime := 7, cached := false }).2 (by omega)⟩

/-- A raw product as parsed from the external API (prices and rating in
hundredths; `commission` is the optional pair of rate and amount that
`parseProducts` builds when `commission_rate` is present). -/
structure AliExpressProduct where
  productId : String
  productTitle : String
  productUrl : String
  imageUrl : String
  originalPrice : Int
  salePrice : Int
  discount : Option String := none
  currency : String
  categoryId : String
  categoryName : String
  sellerId : String
  sellerName : String
  volume : Nat
  evaluateScore : Int
  commission : Option (String × String) := none
deriving DecidableEq, Repr

/-- Embedding of `AliExpressService.calculateRelevanceScore`, in hundredths:
start at 1.0 (100), subtract 0.05 (5) per position, add the seller
rating bonus (thresholds 4.5 → 450 and 4.0 → 400), the volume bonus and
the commission bonus, clamp to [0,1] ([0,100]). -/
def calculateRelevanceScore (product : AliExpressProduct) (position : Nat) : Int :=
  let score : Int := 100
  let score := score - (position : Int) * 5
  let score := if product.evaluateScore > 450 then score + 10
    else if product.evaluateScore > 400 then score + 5 else score
  let score := if product.volume > 1000 then score + 10
    else if product.volume > 100 then score + 5 else score
  let score := if product.commission.isSome then score + 5 else score
  max 0 (min 100 score)

/-- The card built for one product inside
`AliExpressService.convertToProductCards` (the body of the indexed
`map`); `affiliateLinkMap` is the merged cached-plus-new link map.  The
JS `affiliateLink?.affiliateUrl || product.productUrl` falls back on a
missing entry and on an empty affiliate URL (falsy string). -/
def toProductCard (affiliateLinkMap : String → Option AffiliateLink)
    (product : AliExpressProduct) (index : Nat) : ProductCard :=
  { id := product.productId
    title := product.productTitle
    image := product.imageUrl
    priceCurrent := product.salePrice
    priceOriginal :=
      if product.originalPrice ≠ product.salePrice then some product.originalPrice
      else none
    currency := product.currency
    discount := product.discount
    sellerName :=
      if product.sellerName = "" then "AliExpress Seller" else product.sellerName
    sellerRating := product.evaluateScore
    sellerOrders := product.volume
    affiliateUrl :=
      match affiliateLinkMap product.productUrl with
      | some link => if link.affiliateUrl = "" then product.productUrl else link.affiliateUrl
      | none => product.productUrl
    originalUrl := product.productUrl
    relevanceScore := calculateRelevanceScore product index }

/-- Index-threading recursion of the JS `products.map((product, index) => ...)`. -/
def convertFrom (affiliateLinkMap : String → Option AffiliateLink) :
    Nat → List AliExpressProduct → List ProductCard
  | _, [] => []
  | index, product :: rest =>
      toProductCard affiliateLinkMap product index ::
        convertFrom affiliateLinkMap (index + 1) rest

/-- Embedding of `AliExpressService.convertToProductCards` (the `length === 0` early
return coincides with mapping the empty list). -/
def convertToProductCards (affiliateLinkMap : String → Option AffiliateLink)
    (products : List AliExpressProduct) : List ProductCard :=
  convertFrom affiliateLinkMap 0 products

/-- The ranking formula as the specification words it: 1 − 0.05·position
plus the rating, volume and commission bonuses, clamped to [0,1]
(hundredths). -/
def relevanceScoreSpec (product : AliExpressProduct) (position : Nat) : Int :=
  let ratingBonus : Int :=
    if product.evaluateScore > 450 then 10
    else if product.evaluateScore > 400 then 5 else 0
  let volumeBonus : Int :=
    if product.volume > 1000 then 10
    else if product.volume > 100 then 5 else 0
  let commissionBonus : Int := if product.commission.isSome then 5 else 0
  max 0 (min 100
    (100 - (position : Int) * 5 + ratingBonus + volumeBonus + commissionBonus))

/-- The sequential bonus accumulation of the source equals the
specification's sum-of-bonuses formula. -/
theorem calculateRelevanceScore_eq_spec (product : AliExpressProduct)
    (position : Nat) :
    calculateRelevanceScore product position = relevanceScoreSpec product position := by
  simp only [calculateRelevanceScore, relevanceScoreSpec]
  split_ifs <;> exact congrArg (fun t => max 0 (min 100 t)) (by omega)

/-- Elements of `convertFrom` at any starting index. -/
theorem convertFrom_getElem? (affiliateLinkMap : String → Option AffiliateLink)
    (products : List AliExpressProduct) :
    ∀ (start i : Nat),
      (convertFrom affiliateLinkMap start products)[i]? =
        Option.map (fun p => toProductCard affiliateLinkMap p (start + i))
          products[i]? := by
  induction products with
  | nil => intro start i; simp [convertFrom]
  | cons p rest ih =>
      intro start i
      cases i with
      | zero => simp [convertFrom]
      | succ j =>
          simp only [convertFrom, List.getElem?_cons_succ, ih (start + 1) j]
          rw [Nat.add_assoc, Nat.add_comm 1 j]

/-- The recursion `convertFrom` preserves length. -/
theorem convertFrom_length (affiliateLinkMap : String → Option AffiliateLink)
    (products : List AliExpressProduct) :
    ∀ start : Nat,
      (convertFrom affiliateLinkMap start products).length = products.length := by
  induction products with
  | nil => intro start; rfl
  | cons p rest ih =>
      intro start
      simp only [convertFrom, List.length_cons, ih (start + 1)]

/-- C8: the card list has one card per raw product; the i-th card is
built from the i-th raw product (the upstream ordering is preserved —
relevance scores never reorder), carrying its id and original URL; and
its relevance score is exactly the clamped
`1 − 0.05·i (+0.1 | +0.05 rating) (+0.1 | +0.05 volume) (+0.05 commission)`
formula.  Both functions are pure, so identical inputs give identical
scores. -/
theorem convertToProductCards_spec
    (affiliateLinkMap : String → Option AffiliateLink)
    (products : List AliExpressProduct) :
    (convertToProductCards affiliateLinkMap products).length = products.length ∧
    (∀ (i : Nat) (p : AliExpressProduct), products[i]? = some p →
      (convertToProductCards affiliateLinkMap products)[i]? =
        some (toProductCard affiliateLinkMap p i) ∧
      (toProductCard affiliateLinkMap p i).id = p.productId ∧
      (toProductCard affiliateLinkMap p i).originalUrl = p.productUrl ∧
      (toProductCard affiliateLinkMap p i).relevanceScore =
        relevanceScoreSpec p i) := by
  refine ⟨convertFrom_length affiliateLinkMap products 0, ?_⟩
  intro i p hp
  refine ⟨?_, rfl, rfl, calculateRelevanceScore_eq_spec p i⟩
  rw [convertToProductCards, convertFrom_getElem? affiliateLinkMap products 0 i, hp,
    Option.map_some', Nat.zero_add]

/-- Witness for C8 on a one-product list at index 0. -/
theorem convertToProductCards_spec_witness :
    (convertToProductCards (fun _ => none)
      [{ productId := "p1", productTitle := "T", productUrl := "u1",
         imageUrl := "img", originalPrice := 2999, salePrice := 1599,
         currency := "USD", categoryId := "44", categoryName := "electronics",
         sellerId := "s1", sellerName := "Shop", volume := 1250,
         evaluateScore := 460 }]).length = 1 ∧
    (convertToProductCards (fun _ => none)
      [{ productId := "p1", productTitle := "T", productUrl := "u1",
         imageUrl := "img", originalPrice := 2999, salePrice := 1599,
         currency := "USD", categoryId := "44", categoryName := "electronics",
         sellerId := "s1", sellerName := "Shop", volume := 1250,
         evaluateScore := 460 }])[(0 : Nat)]? =
      some (toProductCard (fun _ => none)
        { productId := "p1", productTitle := "T", productUrl := "u1",
          imageUrl := "img", originalPrice := 2999, salePrice := 1599,
          currency := "USD", categoryId := "44", categoryName := "electronics",
          sellerId := "s1", sellerName := "Shop", volume := 1250,
          evaluateScore := 460 } 0) :=
  ⟨(convertToProductCards_spec (fun _ => none) _).1,
   ((convertToProductCards_spec (fun _ => none) _).2 0 _ rfl).1⟩

/-- JS `toLowerCase` (structural, ASCII as in these data). -/
def strToLower (s : String) : String :=
  String.mk (s.data.map Char.toLower)

/-- The fixed demo catalogue of `demo-data.ts` (prices, ratings and
relevance scores in hundredths). -/
def demoProducts : List ProductCard :=
  [{ id := "demo-1",
     title := "Wireless Bluetooth Earbuds with Charging Case",
     image := "https://via.placeholder.com/300x300/007bff/ffffff?text=Earbuds",
     priceCurrent := 1599, priceOriginal := some 2999, currency := "USD",
     discount := some "47% off", sellerName := "TechStore Official",
     sellerRating := 450, sellerOrders := 1250,
     affiliateUrl := "https://s.click.aliexpress.com/demo-affiliate-link-1",
     originalUrl := "https://www.aliexpress.com/item/demo-product-1.html",
     relevanceScore := 95 },
   { id := "demo-2",
     title := "True Wireless Earphones with Noise Cancellation",
     image := "https://via.placeholder.com/300x300/28a745/ffffff?text=Wireless",
     priceCurrent := 1850, priceOriginal := some 3500, currency := "USD",
     discount := some "47% off", sellerName := "AudioTech Store",
     sellerRating := 430, sellerOrders := 890,
     affiliateUrl := "https://s.click.aliexpress.com/demo-affiliate-link-2",
     originalUrl := "https://www.aliexpress.com/item/demo-product-2.html",
     relevanceScore := 88 },
   { id := "demo-3",
     title := "Mini Bluetooth 5.0 Earbuds Sports Headphones",
     image := "https://via.placeholder.com/300x300/dc3545/ffffff?text=Sports",
     priceCurrent := 1299, currency := "USD",
     sellerName := "SportsTech", sellerRating := 410, sellerOrders := 567,
     affiliateUrl := "https://s.click.aliexpress.com/demo-affiliate-link-3",
     originalUrl := "https://www.aliexpress.com/item/demo-product-3.html",
     relevanceScore := 82 }]

/-- Embedding of `generateDemoSearchResponse` from `demo-data.ts`.  The
`Math.floor(Math.random()*200) + 50` search time is driven by the
parameter `rand`. -/
def generateDemoSearchResponse (query : String) (rand : Nat) : SearchResponse :=
  let filteredProducts := demoProducts.filter (fun product =>
    strIncludes (strToLower product.title) (strToLower query) ||
    strIncludes (strToLower query) "earbuds" ||
    strIncludes (strToLower query) "wireless" ||
    strIncludes (strToLower query) "bluetooth")
  { products := filteredProducts
    totalResults := filteredProducts.length
    currentPage := 1
    totalPages := 1
    searchTime := rand % 200 + 50
    cached := false }

/-- JS `array.join(' ')`. -/
def joinSpace : List String → String
  | [] => ""
  | [x] => x
  | x :: y :: rest => x ++ " " ++ joinSpace (y :: rest)

/-- The configuration fields `processMessage` consults. -/
structure ServiceConfig where
  appSecret : String
  pid : String
deriving DecidableEq, Repr

/-- Outcomes of the effectful steps inside `processMessage`: the
rate-limit check against Redis (as a function of the caller identifier),
the whole `searchProducts` orchestration (cache lookups, the external
search call, card conversion, cache write) and the analytics write.  An
`Except.error` value models a rejected promise — a thrown exception — at
that step.  `now` models `Date.now()` and `rand` models `Math.random()`. -/
structure ServiceEffects where
  rateLimit : String → Except String RateLimitResult
  searchProducts : Except String SearchResponse
  trackTerm : Except String Unit
  now : Nat
  rand : Nat

/-- The structured result `processMessage` resolves with. -/
structure ProcessResult where
  isProductSearch : Bool
  response : Option SearchResponse := none
  suggestions : Option (List String) := none
  error : Option String := none
deriving DecidableEq, Repr

/-- The caller identifier: JS `userId || 'anonymous'` (an absent and an
empty-string user id both fall back). -/
def callerIdentifier : Option String → String
  | some u => if u = "" then "anonymous" else u
  | none => "anonymous"

/-- The user-visible rate-limit message
(`Math.ceil((resetTime - Date.now()) / 1000)` seconds; in this
second-granular model, the plain difference). -/
def rateLimitError (resetTime now : Nat) : String :=
  "Rate limit exceeded. Please try again in " ++ toString (resetTime - now) ++
    " seconds."

/-- The generic apology returned when even the demo fallback does not
apply. -/
def apologyError : String :=
  "Sorry, I encountered an error while searching for products. Please try again."

/-- The `try` block of `AliExpressService.processMessage`, step by step;
an `Except.error` outcome is an exception escaping the block. -/
def processMessageTry (config : ServiceConfig) (eff : ServiceEffects)
    (message : String) (userId : Option String) : Except String ProcessResult :=
  let intent := parseIntent message
  if ¬ isProductSearchIntent message then
    Except.ok { isProductSearch := false,
                suggestions := some (generateSuggestions message) }
  else if !(config.appSecret != "demo-secret" && config.pid != "demo-pid") then
    Except.ok { isProductSearch := true,
                response := some (generateDemoSearchResponse
                  (joinSpace intent.keywords) eff.rand) }
  else do
    let rl ← eff.rateLimit (callerIdentifier userId)
    if ¬ rl.allowed then
      Except.ok { isProductSearch := true,
                  error := some (rateLimitError rl.resetTime eff.now) }
    else do
      let resp ← eff.searchProducts
      let _ ← eff.trackTerm
      Except.ok { isProductSearch := true, response := some resp }

/-- Embedding of `AliExpressService.processMessage`: the try block plus the catch
handler, which rebuilds the intent and falls back to the offline demo
data when the message still parses as a product search, and otherwise
reports the generic apology.  The source's inner try/catch around the
fallback collapses here because the demo-data generation is a pure local
computation that cannot reject. -/
def processMessage (config : ServiceConfig) (eff : ServiceEffects)
    (message : String) (userId : Option String) : ProcessResult :=
  match processMessageTry config eff message userId with
  | Except.ok r => r
  | Except.error _ =>
      if isProductSearchIntent message then
        { isProductSearch := true,
          response := some (generateDemoSearchResponse
            (joinSpace (parseIntent message).keywords) eff.rand) }
      else
        { isProductSearch := true, error := some apologyError }

/-- C2: `processMessage` is a total function of the outcomes of its
effectful steps — every path, failing ones included, terminates in a
structured result; it never re-raises.  A successful try block gives the
block's result unchanged; when any internal step throws, the result is
the demo-data response whenever the message still qualifies as
product-search intent, and otherwise a structured result whose `error`
field is the generic apology string. -/
theorem processMessage_spec (config : ServiceConfig) (eff : ServiceEffects)
    (message : String) (userId : Option String) :
    (∀ r, processMessageTry config eff message userId = Except.ok r →
      processMessage config eff message userId = r) ∧
    (∀ e, processMessageTry config eff message userId = Except.error e →
      (isProductSearchIntent message = true →
        processMessage config eff message userId =
          { isProductSearch := true,
            response := some (generateDemoSearchResponse
              (joinSpace (parseIntent message).keywords) eff.rand) }) ∧
      (isProductSearchIntent message = false →
        processMessage config eff message userId =
          { isProductSearch := true, error := some apologyError })) := by
  constructor
  · intro r hr
    simp [processMessage, hr]
  · intro e he
    constructor
    · intro hint
      simp [processMessage, he, hint]
    · intro hint
      simp [processMessage, he, hint]

/-- Witness for C2: with real-looking credentials and a rate-limit check
that throws, the message "find me wireless earbuds under $20" falls back
to the demo-data response. -/
theorem processMessage_spec_witness :
    processMessage { appSecret := "real-secret", pid := "real-pid" }
        { rateLimit := fun _ => Except.error "redis down",
          searchProducts := Except.error "unused",
          trackTerm := Except.ok (), now := 0, rand := 0 }
        "find me wireless earbuds under $20" none =
      { isProductSearch := true,
        response := some (generateDemoSearchResponse
          (joinSpace (parseIntent "find me wireless earbuds under $20").keywords)
          0) } :=
  ((processMessage_spec { appSecret := "real-secret", pid := "real-pid" }
      { rateLimit := fun _ => Except.error "redis down",
        searchProducts := Except.error "unused",
        trackTerm := Except.ok (), now := 0, rand := 0 }
      "find me wireless earbuds under $20" none).2 "redis down" rfl).1 (by decide)
